import Mathlib

/-!
Shallow embedding of the currency-converter core (src/main.py):
the two rate providers (`OnlineRateProvider`, `OfflineRateProvider`),
the cache read/write protocol, the bounded conversion history
(`HistoryManager`), and the conversion engine (`CurrencyConverter.convert`).

Modelling choices:
* Python floats in the rate tables are modelled as exact rationals (`ℚ`);
  amounts parsed by `float(...)` are modelled by `PyFloat`, which keeps the
  non-finite values `inf`, `-inf` and `nan` that `float` can produce, with
  Python's comparison and multiplication semantics on those values.
* The cache file is modelled structurally: `Option CacheData` is the file's
  parsed content (`none` = missing, unreadable or malformed JSON), and a
  `CacheData` field is `none` when the corresponding JSON key is absent.
* Network I/O in `fetch_rates` is a parameter `FetchOutcome`: either a
  successfully parsed response table or any failure (timeout, transport
  error, non-200 status, malformed payload) — all failures reach the same
  `return self.load_cache()` line.
* `datetime.now()` timestamps are the `TimeStamp` structure (second
  precision, which is what the `%Y-%m-%d %H:%M:%S` format keeps);
  `strftime`/`strptime` on that fixed format are `formatTs`/`parseTs`.
-/

/-- Python float values as produced by `float(text)` and the arithmetic in
`convert`: a finite rational, positive/negative infinity, or NaN. -/
inductive PyFloat where
  | finite (q : ℚ)
  | inf
  | neginf
  | nan
deriving DecidableEq

/-- Python `<` on floats: NaN is incomparable (every comparison is False). -/
def pyLt : PyFloat → PyFloat → Bool
  | .nan, _ => false
  | _, .nan => false
  | .finite a, .finite b => a < b
  | .finite _, .inf => true
  | .finite _, .neginf => false
  | .inf, .finite _ => false
  | .inf, .inf => false
  | .inf, .neginf => false
  | .neginf, .finite _ => true
  | .neginf, .inf => true
  | .neginf, .neginf => false

/-- Python `<=` on floats: NaN is incomparable (every comparison is False). -/
def pyLe : PyFloat → PyFloat → Bool
  | .nan, _ => false
  | _, .nan => false
  | .finite a, .finite b => a ≤ b
  | .finite _, .inf => true
  | .finite _, .neginf => false
  | .inf, .finite _ => false
  | .inf, .inf => true
  | .inf, .neginf => false
  | .neginf, _ => true

/-- Python `*` on floats: NaN propagates, `inf * 0` is NaN, signs multiply. -/
def pyMul : PyFloat → PyFloat → PyFloat
  | .nan, _ => .nan
  | _, .nan => .nan
  | .finite a, .finite b => .finite (a * b)
  | .finite a, .inf => if 0 < a then .inf else if a < 0 then .neginf else .nan
  | .finite a, .neginf => if 0 < a then .neginf else if a < 0 then .inf else .nan
  | .inf, .finite b => if 0 < b then .inf else if b < 0 then .neginf else .nan
  | .neginf, .finite b => if 0 < b then .neginf else if b < 0 then .inf else .nan
  | .inf, .inf => .inf
  | .inf, .neginf => .neginf
  | .neginf, .inf => .neginf
  | .neginf, .neginf => .inf

/-- Finiteness test on a Python float (`math.isfinite`). -/
def PyFloat.isFinite : PyFloat → Bool
  | .finite _ => true
  | _ => false

/-- Whitespace stripped by Python `float(str)` before parsing. -/
def isPyWs (c : Char) : Bool :=
  c = ' ' || c = '\t' || c = '\n' || c = '\r'

/-- Strip leading and trailing whitespace from a character list. -/
def trimWs (l : List Char) : List Char :=
  ((l.dropWhile isPyWs).reverse.dropWhile isPyWs).reverse

/-- Numeric value of a list of decimal digit characters. -/
def digitsToNat (l : List Char) : ℕ :=
  l.foldl (fun a c => a * 10 + (c.toNat - 48)) 0

/-- Optional exponent suffix (`e`/`E`, optional sign, digits) applied to a
mantissa, as accepted by Python `float`. Empty input means no exponent. -/
def applyExp (m : ℚ) (l : List Char) : Option ℚ :=
  match l with
  | [] => some m
  | c :: rest =>
    if c = 'e' ∨ c = 'E' then
      let (neg, ds) :=
        match rest with
        | '+' :: r => (false, r)
        | '-' :: r => (true, r)
        | r => (false, r)
      if ds ≠ [] ∧ ds.all Char.isDigit then
        some (if neg then m / 10 ^ digitsToNat ds else m * 10 ^ digitsToNat ds)
      else none
    else none

/-- Unsigned decimal literal (`123`, `1.5`, `.5`, `1.`, with optional
exponent), as accepted by Python `float`; at least one digit is required. -/
def parseUnsigned (l : List Char) : Option ℚ :=
  let intPart := l.takeWhile Char.isDigit
  let rest := l.dropWhile Char.isDigit
  match rest with
  | '.' :: rest2 =>
    let fracPart := rest2.takeWhile Char.isDigit
    let rest3 := rest2.dropWhile Char.isDigit
    if intPart = [] ∧ fracPart = [] then none
    else
      applyExp ((digitsToNat intPart : ℚ) +
        (digitsToNat fracPart : ℚ) / (10 : ℚ) ^ fracPart.length) rest3
  | _ =>
    if intPart = [] then none
    else applyExp (digitsToNat intPart : ℚ) rest

/-- Python `float(text)`: strip whitespace, optional sign, then either the
case-insensitive words `inf`/`infinity`/`nan` or a decimal literal.
`none` models the `ValueError` that `convert` catches. -/
def pyFloatOfString (s : String) : Option PyFloat :=
  let l := trimWs s.data
  let (neg, l2) :=
    match l with
    | '+' :: r => (false, r)
    | '-' :: r => (true, r)
    | r => (false, r)
  let low := l2.map Char.toLower
  if low = "inf".data ∨ low = "infinity".data then
    some (if neg then .neginf else .inf)
  else if low = "nan".data then some .nan
  else
    match parseUnsigned l2 with
    | some q => some (.finite (if neg then -q else q))
    | none => none

/-- A wall-clock timestamp at the second precision kept by the cache's
`%Y-%m-%d %H:%M:%S` format. -/
structure TimeStamp where
  year : ℕ
  month : ℕ
  day : ℕ
  hour : ℕ
  minute : ℕ
  second : ℕ
deriving DecidableEq

/-- Decimal digit character for a value below 10. -/
def digCh : ℕ → Char
  | 0 => '0'
  | 1 => '1'
  | 2 => '2'
  | 3 => '3'
  | 4 => '4'
  | 5 => '5'
  | 6 => '6'
  | 7 => '7'
  | 8 => '8'
  | _ => '9'

/-- Numeric value of a decimal digit character, `none` otherwise. -/
def charVal (c : Char) : Option ℕ :=
  if c = '0' then some 0
  else if c = '1' then some 1
  else if c = '2' then some 2
  else if c = '3' then some 3
  else if c = '4' then some 4
  else if c = '5' then some 5
  else if c = '6' then some 6
  else if c = '7' then some 7
  else if c = '8' then some 8
  else if c = '9' then some 9
  else none

/-- Two-digit zero-padded field, as emitted by `strftime` `%m`/`%d` etc. -/
def pad2 (n : ℕ) : List Char := [digCh (n / 10), digCh (n % 10)]

/-- Four-digit zero-padded year, as emitted by `strftime` `%Y`. -/
def pad4 (n : ℕ) : List Char :=
  [digCh (n / 1000), digCh (n / 100 % 10), digCh (n / 10 % 10), digCh (n % 10)]

/-- `strftime("%Y-%m-%d %H:%M:%S")` on a timestamp. -/
def formatTs (t : TimeStamp) : String :=
  ⟨pad4 t.year ++ '-' :: pad2 t.month ++ '-' :: pad2 t.day ++
    ' ' :: pad2 t.hour ++ ':' :: pad2 t.minute ++ ':' :: pad2 t.second⟩

/-- Two-digit numeric field of `strptime`. -/
def d2 (a b : Char) : Option ℕ :=
  match charVal a, charVal b with
  | some x, some y => some (10 * x + y)
  | _, _ => none

/-- Four-digit numeric year field of `strptime` `%Y`. -/
def d4 (a b c d : Char) : Option ℕ :=
  match charVal a, charVal b, charVal c, charVal d with
  | some x, some y, some z, some w => some (1000 * x + 100 * y + 10 * z + w)
  | _, _, _, _ => none

/-- `strptime(s, "%Y-%m-%d %H:%M:%S")`: exactly the 19-character shape with
digit fields in the ranges Python validates; `none` models the raised
`ValueError`. -/
def parseTs (s : String) : Option TimeStamp :=
  match s.data with
  | [a, b, c, d, s1, e, f, s2, g, h, s3, i, j, s4, k, l, s5, m, n] =>
    if s1 = '-' ∧ s2 = '-' ∧ s3 = ' ' ∧ s4 = ':' ∧ s5 = ':' then
      match d4 a b c d, d2 e f, d2 g h, d2 i j, d2 k l, d2 m n with
      | some yv, some mo, some dy, some hr, some mi, some sc =>
        if 1 ≤ mo ∧ mo ≤ 12 ∧ 1 ≤ dy ∧ dy ≤ 31 ∧ hr ≤ 23 ∧ mi ≤ 59 ∧ sc ≤ 61
        then some ⟨yv, mo, dy, hr, mi, sc⟩
        else none
      | _, _, _, _, _, _ => none
    else none
  | _ => none

/-- Python `dict.get(code, 0)` on a rate table (insertion-ordered mapping
with unique keys, modelled as an association list). -/
def ratesGet (rs : List (String × ℚ)) (c : String) : ℚ :=
  (List.lookup c rs).getD 0

/-- Parsed content of the JSON cache file: each field is `none` when the
corresponding key is absent (`dict.get` defaults apply on load). -/
structure CacheData where
  rates : Option (List (String × ℚ))
  base_currency : Option String
  last_update : Option String
deriving DecidableEq

/-- Mutable state of an `OnlineRateProvider` instance: `self.rates`,
`self.base_currency`, `self.last_update`. -/
structure OnlineState where
  rates : List (String × ℚ)
  base_currency : String
  last_update : Option TimeStamp
deriving DecidableEq

/-- Outcome of the HTTP request in `fetch_rates`: a parsed `rates` table
from a 200 response, or any failure (timeout, transport error, non-200
status, unparseable body) — every failure reaches the same fallback line. -/
inductive FetchOutcome where
  | success (rates : List (String × ℚ))
  | failure
deriving DecidableEq

/-- `OnlineRateProvider.save_cache`: the JSON document written to the cache
file (`last_update` formatted, or `""` when never updated). Write errors
are swallowed in the source and not modelled. -/
def OnlineRateProvider.save_cache (st : OnlineState) : CacheData :=
  { rates := some st.rates
    base_currency := some st.base_currency
    last_update := some (match st.last_update with
      | some t => formatTs t
      | none => "") }

/-- `OnlineRateProvider.load_cache`: on a readable file, assign `rates` and
`base_currency` from the document (with defaults), then parse a non-empty
`last_update` string — a malformed timestamp raises after the first two
assignments, so the method returns `false` with `rates`/`base_currency`
already overwritten. Returns whether the loaded table is non-empty. -/
def OnlineRateProvider.load_cache (st : OnlineState) (file : Option CacheData) :
    OnlineState × Bool :=
  match file with
  | none => (st, false)
  | some cd =>
    let rates2 := cd.rates.getD []
    let base2 := cd.base_currency.getD "USD"
    let luStr := cd.last_update.getD ""
    if luStr = "" then
      ({ rates := rates2, base_currency := base2, last_update := st.last_update },
        !rates2.isEmpty)
    else
      match parseTs luStr with
      | some t =>
        ({ rates := rates2, base_currency := base2, last_update := some t },
          !rates2.isEmpty)
      | none =>
        ({ rates := rates2, base_currency := base2, last_update := st.last_update },
          false)

/-- `OnlineRateProvider.fetch_rates`: on a 200 response with a parseable
table, replace the table, stamp `last_update := now`, write the cache and
return `true`; on any failure, `return self.load_cache()`. Result is
(new provider state, cache file content after the call, returned boolean). -/
def OnlineRateProvider.fetch_rates (st : OnlineState) (remote : FetchOutcome)
    (now : TimeStamp) (file : Option CacheData) :
    OnlineState × Option CacheData × Bool :=
  match remote with
  | .success r =>
    let st2 : OnlineState :=
      { rates := r, base_currency := st.base_currency, last_update := some now }
    (st2, some (OnlineRateProvider.save_cache st2), true)
  | .failure =>
    let res := OnlineRateProvider.load_cache st file
    (res.1, file, res.2)

/-- `OnlineRateProvider.get_exchange_rate`: empty-table check first, then
same-currency, then base-currency triangulation with 0 as the sentinel for
any missing or zero operand. -/
def OnlineRateProvider.get_exchange_rate (st : OnlineState)
    (from_currency to_currency : String) : ℚ :=
  if st.rates = [] then 0
  else if from_currency = to_currency then 1
  else if from_currency = st.base_currency then ratesGet st.rates to_currency
  else if to_currency = st.base_currency then
    let fr := ratesGet st.rates from_currency
    if fr ≠ 0 then 1 / fr else 0
  else
    let fr := ratesGet st.rates from_currency
    let tr := ratesGet st.rates to_currency
    if fr ≠ 0 ∧ tr ≠ 0 then tr / fr else 0

/-- The static fallback table of `OfflineRateProvider.__init__`, with the
source's decimal literals as exact rationals. -/
def OfflineRateProvider.static_rates : List (String × ℚ) :=
  [("USD", 1), ("EUR", 17 / 20), ("UAH", 37), ("GBP", 73 / 100),
   ("JPY", 110), ("CAD", 5 / 4), ("AUD", 27 / 20), ("CHF", 23 / 25),
   ("CNY", 129 / 20), ("SEK", 35 / 4), ("NOK", 179 / 20), ("PLN", 77 / 20),
   ("CZK", 43 / 2), ("TRY", 33 / 4), ("RUB", 75)]

/-- `OfflineRateProvider.load_cache`: the `rates` field of a readable cache
file, else the empty table. -/
def OfflineRateProvider.load_cache (file : Option CacheData) : List (String × ℚ) :=
  match file with
  | some cd => cd.rates.getD []
  | none => []

/-- `OfflineRateProvider.__init__`: cache table if non-empty, else the
static fallback table. The result is the provider's immutable table. -/
def OfflineRateProvider.mk (file : Option CacheData) : List (String × ℚ) :=
  let r := OfflineRateProvider.load_cache file
  if r.isEmpty then OfflineRateProvider.static_rates else r

/-- `OfflineRateProvider.get_exchange_rate`: same-currency check, then the
cross-rate `to/from` with 0 for any missing or zero operand; no
base-currency special case exists in this variant. -/
def OfflineRateProvider.get_exchange_rate (rates : List (String × ℚ))
    (from_currency to_currency : String) : ℚ :=
  if from_currency = to_currency then 1
  else
    let fr := ratesGet rates from_currency
    let tr := ratesGet rates to_currency
    if fr ≠ 0 ∧ tr ≠ 0 then tr / fr else 0

/-- The two concrete `ExchangeRateProvider` variants the converter can hold. -/
inductive Provider where
  | online (st : OnlineState)
  | offline (rates : List (String × ℚ))
deriving DecidableEq

/-- Polymorphic dispatch of `get_exchange_rate` over the installed variant. -/
def Provider.get_exchange_rate : Provider → String → String → ℚ
  | .online st, f, t => OnlineRateProvider.get_exchange_rate st f t
  | .offline rs, f, t => OfflineRateProvider.get_exchange_rate rs f t

/-- The rate table owned by a provider. -/
def Provider.rates : Provider → List (String × ℚ)
  | .online st => st.rates
  | .offline rs => rs

/-- The base currency the provider's table is denominated against:
`self.base_currency` for the online variant; the offline variant stores no
base, its static table being USD-denominated per the spec. -/
def Provider.base : Provider → String
  | .online st => st.base_currency
  | .offline _ => "USD"

/-- A record appended to the conversion history; the timestamp string is the
`"%d.%m.%Y %H:%M"` rendering of `datetime.now()` passed in by the caller. -/
structure ConversionRecord where
  timestamp : String
  amount : PyFloat
  from_currency : String
  to_currency : String
  rate : ℚ
  result : PyFloat
deriving DecidableEq

/-- `HistoryManager.save_entry`: append, then drop the oldest entry (index
0) when the length exceeds 50. -/
def HistoryManager.save_entry {α : Type} (h : List α) (e : α) : List α :=
  if 50 < (h ++ [e]).length then (h ++ [e]).tail else h ++ [e]

/-- The error outcomes of `CurrencyConverter.convert`, one per distinct
message string the source returns: invalidAmount is the `ValueError` branch
("Некоректне значення суми"), negativeAmount the negative check
("Сума не може бути від'ємною"), rateUnavailable the `rate <= 0` check
("Не вдалося отримати курс валют"). -/
inductive ConvError where
  | invalidAmount
  | negativeAmount
  | rateUnavailable
deriving DecidableEq

/-- `CurrencyConverter.convert`: parse the amount, reject negatives, fetch
the rate from the installed provider, reject a non-positive rate, otherwise
multiply, append a record to the history and return the result. Returns
((result, error), new history). -/
def CurrencyConverter.convert (p : Provider) (hist : List ConversionRecord)
    (now : String) (amount : String) (from_currency to_currency : String) :
    (Option PyFloat × Option ConvError) × List ConversionRecord :=
  match pyFloatOfString amount with
  | none => ((none, some .invalidAmount), hist)
  | some a =>
    if pyLt a (.finite 0) then ((none, some .negativeAmount), hist)
    else
      let rate := Provider.get_exchange_rate p from_currency to_currency
      if rate ≤ 0 then ((none, some .rateUnavailable), hist)
      else
        let result := pyMul a (.finite rate)
        ((some result, none),
          HistoryManager.save_entry hist
            ⟨now, a, from_currency, to_currency, rate, result⟩)

/-- Field ranges accepted by Python `strptime` for this format (plus the
four-digit bound that `%Y` zero-padding imposes); `datetime` values always
satisfy them. -/
def validTs (t : TimeStamp) : Prop :=
  t.year ≤ 9999 ∧ 1 ≤ t.month ∧ t.month ≤ 12 ∧ 1 ≤ t.day ∧ t.day ≤ 31 ∧
  t.hour ≤ 23 ∧ t.minute ≤ 59 ∧ t.second ≤ 61

instance (t : TimeStamp) : Decidable (validTs t) := by
  unfold validTs
  infer_instance

/-! Helper lemmas shared by the claim theorems. -/

lemma ratesGet_ne_nil_of_pos {rs : List (String × ℚ)} {c : String}
    (h : 0 < ratesGet rs c) : rs ≠ [] := by
  intro hnil
  subst hnil
  simp [ratesGet] at h

lemma online_get_nonbase {st : OnlineState} {x y : String}
    (hx : x ≠ st.base_currency) (hy : y ≠ st.base_currency)
    (hrx : 0 < ratesGet st.rates x) (hry : 0 < ratesGet st.rates y) :
    OnlineRateProvider.get_exchange_rate st x y =
      ratesGet st.rates y / ratesGet st.rates x := by
  have hne := ratesGet_ne_nil_of_pos hrx
  by_cases hxy : x = y
  · subst hxy
    simp [OnlineRateProvider.get_exchange_rate, hne, div_self hrx.ne']
  · simp [OnlineRateProvider.get_exchange_rate, hne, hxy, hx, hy,
      hrx.ne', hry.ne']

lemma offline_get_pos {rs : List (String × ℚ)} {x y : String}
    (hrx : 0 < ratesGet rs x) (hry : 0 < ratesGet rs y) :
    OfflineRateProvider.get_exchange_rate rs x y =
      ratesGet rs y / ratesGet rs x := by
  by_cases hxy : x = y
  · subst hxy
    simp [OfflineRateProvider.get_exchange_rate, div_self hrx.ne']
  · simp [OfflineRateProvider.get_exchange_rate, hxy, hrx.ne', hry.ne']

/-- C2 counterexample: an online provider with an empty table returns 0, not
1, for a same-currency pair, because the empty-table check precedes the
same-currency check. -/
theorem C2_counterexample :
    OnlineRateProvider.get_exchange_rate ⟨[], "USD", none⟩ "USD" "USD" ≠ 1 := by
  decide

/-- C2 (amended): the offline variant returns 1 for every same-currency
pair; the online variant returns 1 for a same-currency pair only when its
table is non-empty, and returns 0 when the table is empty. -/
theorem C2_same_currency_rate :
    (∀ (rs : List (String × ℚ)) (c : String),
      OfflineRateProvider.get_exchange_rate rs c c = 1) ∧
    (∀ (st : OnlineState) (c : String), st.rates ≠ [] →
      OnlineRateProvider.get_exchange_rate st c c = 1) ∧
    (∀ (st : OnlineState) (c : String), st.rates = [] →
      OnlineRateProvider.get_exchange_rate st c c = 0) := by
  refine ⟨?_, ?_, ?_⟩
  · intro rs c
    simp [OfflineRateProvider.get_exchange_rate]
  · intro st c h
    simp [OnlineRateProvider.get_exchange_rate, h]
  · intro st c h
    simp [OnlineRateProvider.get_exchange_rate, h]

/-- C2 witness: a non-empty online provider gives 1 on a same-currency
pair, an empty one gives 0. -/
theorem C2_same_currency_rate_witness :
    OnlineRateProvider.get_exchange_rate ⟨[("EUR", 17 / 20)], "USD", none⟩
      "USD" "USD" = 1 ∧
    OnlineRateProvider.get_exchange_rate ⟨[], "USD", none⟩ "EUR" "EUR" = 0 :=
  ⟨C2_same_currency_rate.2.1 ⟨[("EUR", 17 / 20)], "USD", none⟩ "USD" (by decide),
   C2_same_currency_rate.2.2 ⟨[], "USD", none⟩ "EUR" rfl⟩

/-- C5 counterexample: an offline provider built from a cache whose
USD-denominated table carries entry 2 for the base USD itself returns
`entry(EUR)/entry(USD) = 2` for (USD, EUR), not the direct table entry 4
that the claim requires when `from` equals the base currency — the offline
variant has no base-currency special case. -/
theorem C5_counterexample :
    OfflineRateProvider.mk
        (some ⟨some [("USD", 2), ("EUR", 4)], some "USD", some ""⟩) =
      [("USD", 2), ("EUR", 4)] ∧
    OfflineRateProvider.get_exchange_rate [("USD", 2), ("EUR", 4)]
      "USD" "EUR" = 2 ∧
    ratesGet [("USD", 2), ("EUR", 4)] "EUR" = 4 ∧ (2 : ℚ) ≠ 4 := by
  refine ⟨by decide, ?_, by decide, by decide⟩
  have h1 : ratesGet [("USD", 2), ("EUR", 4)] "USD" = 2 := by decide
  have h2 : ratesGet [("USD", 2), ("EUR", 4)] "EUR" = 4 := by decide
  simp only [OfflineRateProvider.get_exchange_rate, h1, h2]
  rw [if_neg (by decide : ¬("USD" = "EUR")), if_pos (by decide : (2 : ℚ) ≠ 0 ∧ (4 : ℚ) ≠ 0)]
  norm_num

/-- C5 (amended): the online variant with a non-empty table and distinct
currencies follows the claimed three cases (direct entry from the base,
guarded reciprocal to the base, guarded cross-rate otherwise, with absent
codes reading as 0); the offline variant ignores any base designation and
always returns the guarded cross-rate entry(to)/entry(from). Both are total
Lean functions, so neither can raise. -/
theorem C5_rate_cases :
    (∀ (st : OnlineState) (fc tc : String), st.rates ≠ [] → fc ≠ tc →
      ((fc = st.base_currency →
          OnlineRateProvider.get_exchange_rate st fc tc = ratesGet st.rates tc) ∧
       (fc ≠ st.base_currency → tc = st.base_currency →
          OnlineRateProvider.get_exchange_rate st fc tc =
            (if ratesGet st.rates fc = 0 then 0
             else 1 / ratesGet st.rates fc)) ∧
       (fc ≠ st.base_currency → tc ≠ st.base_currency →
          OnlineRateProvider.get_exchange_rate st fc tc =
            (if ratesGet st.rates fc = 0 ∨ ratesGet st.rates tc = 0 then 0
             else ratesGet st.rates tc / ratesGet st.rates fc)))) ∧
    (∀ (rs : List (String × ℚ)) (fc tc : String), fc ≠ tc →
      OfflineRateProvider.get_exchange_rate rs fc tc =
        (if ratesGet rs fc = 0 ∨ ratesGet rs tc = 0 then 0
         else ratesGet rs tc / ratesGet rs fc)) := by
  constructor
  · intro st fc tc hne hfctc
    refine ⟨?_, ?_, ?_⟩
    · intro hfb
      subst hfb
      simp [OnlineRateProvider.get_exchange_rate, hne, hfctc]
    · intro hfb htb
      subst htb
      simp only [OnlineRateProvider.get_exchange_rate]
      rw [if_neg hne, if_neg hfctc, if_neg hfb]
      by_cases h : ratesGet st.rates fc = 0 <;> simp [h]
    · intro hfb htb
      simp only [OnlineRateProvider.get_exchange_rate]
      rw [if_neg hne, if_neg hfctc, if_neg hfb, if_neg htb]
      by_cases h1 : ratesGet st.rates fc = 0 <;>
        by_cases h2 : ratesGet st.rates tc = 0 <;> simp [h1, h2]
  · intro rs fc tc hfctc
    simp only [OfflineRateProvider.get_exchange_rate]
    rw [if_neg hfctc]
    by_cases h1 : ratesGet rs fc = 0 <;>
      by_cases h2 : ratesGet rs tc = 0 <;> simp [h1, h2]

/-- C5 witness: on a concrete online state the three cases produce the
claimed values, and a concrete offline table produces the cross-rate. -/
theorem C5_rate_cases_witness :
    OnlineRateProvider.get_exchange_rate
        ⟨[("EUR", 17 / 20), ("UAH", 37)], "USD", none⟩ "USD" "UAH" =
      ratesGet [("EUR", 17 / 20), ("UAH", 37)] "UAH" ∧
    OnlineRateProvider.get_exchange_rate
        ⟨[("EUR", 17 / 20), ("UAH", 37)], "USD", none⟩ "EUR" "USD" =
      (if ratesGet [("EUR", 17 / 20), ("UAH", 37)] "EUR" = 0 then 0
       else 1 / ratesGet [("EUR", 17 / 20), ("UAH", 37)] "EUR") ∧
    OnlineRateProvider.get_exchange_rate
        ⟨[("EUR", 17 / 20), ("UAH", 37)], "USD", none⟩ "UAH" "EUR" =
      (if ratesGet [("EUR", 17 / 20), ("UAH", 37)] "UAH" = 0 ∨
          ratesGet [("EUR", 17 / 20), ("UAH", 37)] "EUR" = 0 then 0
       else ratesGet [("EUR", 17 / 20), ("UAH", 37)] "EUR" /
         ratesGet [("EUR", 17 / 20), ("UAH", 37)] "UAH") ∧
    OfflineRateProvider.get_exchange_rate [("USD", 2), ("EUR", 4)]
        "UAH" "EUR" =
      (if ratesGet [("USD", 2), ("EUR", 4)] "UAH" = 0 ∨
          ratesGet [("USD", 2), ("EUR", 4)] "EUR" = 0 then 0
       else ratesGet [("USD", 2), ("EUR", 4)] "EUR" /
         ratesGet [("USD", 2), ("EUR", 4)] "UAH") :=
  ⟨(C5_rate_cases.1 ⟨[("EUR", 17 / 20), ("UAH", 37)], "USD", none⟩ "USD" "UAH"
      (by decide) (by decide)).1 rfl,
   (C5_rate_cases.1 ⟨[("EUR", 17 / 20), ("UAH", 37)], "USD", none⟩ "EUR" "USD"
      (by decide) (by decide)).2.1 (by decide) rfl,
   (C5_rate_cases.1 ⟨[("EUR", 17 / 20), ("UAH", 37)], "USD", none⟩ "UAH" "EUR"
      (by decide) (by decide)).2.2 (by decide) (by decide),
   C5_rate_cases.2 [("USD", 2), ("EUR", 4)] "UAH" "EUR" (by decide)⟩

/-- C6 counterexample: a failed fetch with a readable cache file holding an
empty `rates` table clears the previously non-empty in-memory table instead
of leaving it in place — `load_cache` assigns `self.rates` from the cache
unconditionally once the file parses. -/
theorem C6_counterexample :
    (OnlineRateProvider.fetch_rates ⟨[("EUR", 9 / 10)], "USD", none⟩ .failure
        ⟨2024, 6, 1, 0, 0, 0⟩ (some ⟨some [], some "USD", some ""⟩)).1.rates =
      [] ∧
    ([("EUR", (9 : ℚ) / 10)] : List (String × ℚ)) ≠ [] := by
  decide

/-- C6 (amended): a failed fetch leaves the provider state (and the cache
file) unchanged exactly when the cache file is missing or unreadable; when
the cache file parses, the in-memory table and base currency are replaced by
the cache contents — even when the cached table is empty. -/
theorem C6_failed_fetch_state :
    (∀ (st : OnlineState) (now : TimeStamp),
      OnlineRateProvider.fetch_rates st .failure now none = (st, none, false)) ∧
    (∀ (st : OnlineState) (now : TimeStamp) (cd : CacheData),
      (OnlineRateProvider.fetch_rates st .failure now (some cd)).1.rates =
        cd.rates.getD [] ∧
      (OnlineRateProvider.fetch_rates st .failure now (some cd)).1.base_currency =
        cd.base_currency.getD "USD") := by
  constructor
  · intro st now
    rfl
  · intro st now cd
    simp only [OnlineRateProvider.fetch_rates, OnlineRateProvider.load_cache]
    by_cases hl : cd.last_update.getD "" = ""
    · simp [hl]
    · rcases hp : parseTs (cd.last_update.getD "") with _ | t <;> simp [hl, hp]

/-- C7: for any provider variant and any two non-base currencies with
positive table entries, the rate is the cross-rate entry(y)/entry(x), and
the two directions multiply to exactly 1. -/
theorem C7_triangulation :
    ∀ (p : Provider) (x y : String),
      x ≠ Provider.base p → y ≠ Provider.base p →
      0 < ratesGet (Provider.rates p) x → 0 < ratesGet (Provider.rates p) y →
      Provider.get_exchange_rate p x y =
        ratesGet (Provider.rates p) y / ratesGet (Provider.rates p) x ∧
      Provider.get_exchange_rate p x y * Provider.get_exchange_rate p y x = 1 := by
  intro p x y hx hy hrx hry
  have key :
      Provider.get_exchange_rate p x y =
        ratesGet (Provider.rates p) y / ratesGet (Provider.rates p) x ∧
      Provider.get_exchange_rate p y x =
        ratesGet (Provider.rates p) x / ratesGet (Provider.rates p) y := by
    cases p with
    | online st =>
      exact ⟨online_get_nonbase hx hy hrx hry, online_get_nonbase hy hx hry hrx⟩
    | offline rs =>
      exact ⟨offline_get_pos hrx hry, offline_get_pos hry hrx⟩
  refine ⟨key.1, ?_⟩
  rw [key.1, key.2, div_mul_div_comm, mul_comm]
  exact div_self (mul_ne_zero hrx.ne' hry.ne')

/-- C7 witness: EUR and UAH, both non-base with positive entries, in a
concrete offline table. -/
theorem C7_triangulation_witness :
    Provider.get_exchange_rate (Provider.offline [("EUR", 2), ("UAH", 40)])
        "EUR" "UAH" =
      ratesGet (Provider.rates (Provider.offline [("EUR", 2), ("UAH", 40)]))
          "UAH" /
        ratesGet (Provider.rates (Provider.offline [("EUR", 2), ("UAH", 40)]))
          "EUR" ∧
    Provider.get_exchange_rate (Provider.offline [("EUR", 2), ("UAH", 40)])
        "EUR" "UAH" *
      Provider.get_exchange_rate (Provider.offline [("EUR", 2), ("UAH", 40)])
        "UAH" "EUR" = 1 :=
  C7_triangulation (Provider.offline [("EUR", 2), ("UAH", 40)]) "EUR" "UAH"
    (by decide) (by decide) (by decide) (by decide)

lemma pyLt_neg_false {a : PyFloat} (h : pyLe (.finite 0) a = true) :
    pyLt a (.finite 0) = false := by
  cases a with
  | finite q =>
    simp only [pyLe, decide_eq_true_eq] at h
    simp [pyLt, not_lt.mpr h]
  | inf => rfl
  | neginf => simp [pyLe] at h
  | nan => simp [pyLe] at h

lemma save_entry_getLast {α : Type} (h : List α) (e : α) :
    (HistoryManager.save_entry h e).getLast? = some e := by
  unfold HistoryManager.save_entry
  split_ifs with hlen
  · cases h with
    | nil => simp at hlen
    | cons x h2 =>
      simp only [List.cons_append, List.tail_cons]
      exact List.getLast?_concat h2
  · exact List.getLast?_concat h

lemma save_entry_length {α : Type} (l : List α) (e : α) (h : l.length ≤ 50) :
    (HistoryManager.save_entry l e).length ≤ 50 := by
  unfold HistoryManager.save_entry
  split_ifs with h2 <;> simp_all

lemma save_entry_foldl {α : Type} :
    ∀ (es l : List α), l.length ≤ 50 →
      es.foldl HistoryManager.save_entry l =
        (l ++ es).drop ((l ++ es).length - 50) := by
  intro es
  induction es with
  | nil =>
    intro l h
    simp only [List.foldl_nil, List.append_nil]
    rw [Nat.sub_eq_zero_of_le h, List.drop_zero]
  | cons e es ih =>
    intro l h
    rw [List.foldl_cons, ih _ (save_entry_length l e h)]
    rcases Nat.lt_or_ge l.length 50 with hl | hl
    · have hsave : HistoryManager.save_entry l e = l ++ [e] := by
        unfold HistoryManager.save_entry
        rw [if_neg (by simp; omega)]
      rw [hsave]
      simp [List.append_assoc]
    · have hl50 : l.length = 50 := le_antisymm h hl
      have hsave : HistoryManager.save_entry l e = (l ++ [e]).tail := by
        unfold HistoryManager.save_entry
        rw [if_pos (by simp [hl50])]
      rw [hsave]
      obtain ⟨x, l2, rfl⟩ : ∃ x l2, l = x :: l2 := by
        cases l with
        | nil => simp at hl50
        | cons x l2 => exact ⟨x, l2, rfl⟩
      have hlen2 : l2.length = 49 := by
        simp at hl50
        omega
      simp only [List.cons_append, List.tail_cons, List.length_append,
        List.length_cons, hlen2, List.length_drop, List.length_nil]
      have hidx1 : 49 + (0 + 1) + es.length - 50 = es.length := by omega
      have hidx2 : 49 + (es.length + 1) + 1 - 50 = es.length + 1 := by omega
      rw [hidx1, hidx2, List.drop_succ_cons]
      congr 1
      simp

lemma charVal_digCh {n : ℕ} (h : n < 10) : charVal (digCh n) = some n := by
  interval_cases n <;> rfl

lemma d2_pad {n : ℕ} (h : n ≤ 99) :
    d2 (digCh (n / 10)) (digCh (n % 10)) = some n := by
  have h1 : n / 10 < 10 := by omega
  have h2 : n % 10 < 10 := Nat.mod_lt _ (by norm_num)
  simp only [d2, charVal_digCh h1, charVal_digCh h2, Option.some.injEq]
  omega

lemma d4_pad {n : ℕ} (h : n ≤ 9999) :
    d4 (digCh (n / 1000)) (digCh (n / 100 % 10)) (digCh (n / 10 % 10))
      (digCh (n % 10)) = some n := by
  have h1 : n / 1000 < 10 := by omega
  have h2 : n / 100 % 10 < 10 := Nat.mod_lt _ (by norm_num)
  have h3 : n / 10 % 10 < 10 := Nat.mod_lt _ (by norm_num)
  have h4 : n % 10 < 10 := Nat.mod_lt _ (by norm_num)
  simp only [d4, charVal_digCh h1, charVal_digCh h2, charVal_digCh h3,
    charVal_digCh h4, Option.some.injEq]
  omega

lemma formatTs_ne_empty (t : TimeStamp) : formatTs t ≠ "" := by
  intro h
  have hd := congrArg String.data h
  simp [formatTs, pad4] at hd

lemma parse_format {t : TimeStamp} (h : validTs t) :
    parseTs (formatTs t) = some t := by
  obtain ⟨hy, hm1, hm2, hd1, hd2, hh, hmi, hs⟩ := h
  simp only [formatTs, pad4, pad2]
  simp only [parseTs, List.cons_append, List.nil_append]
  rw [if_pos (⟨trivial, trivial, trivial, trivial, trivial⟩ :
    True ∧ True ∧ True ∧ True ∧ True)]
  rw [d4_pad hy, d2_pad (show t.month ≤ 99 by omega),
    d2_pad (show t.day ≤ 99 by omega), d2_pad (show t.hour ≤ 99 by omega),
    d2_pad (show t.minute ≤ 99 by omega), d2_pad (show t.second ≤ 99 by omega)]
  simp [hm1, hm2, hd1, hd2, hh, hmi, hs]

lemma pyMul_inf_pos {r : ℚ} (h : 0 < r) : pyMul .inf (.finite r) = .inf := by
  simp [pyMul, h]

/-- C1 counterexample: remote failure with a cache holding a non-empty table
and the timestamp string "2024-01-02 03:04:05" makes `fetch_rates` return
true (the claim requires false) and set `last_update` to the cached
timestamp (the claim requires it unchanged, here `none`). -/
theorem C1_counterexample :
    (OnlineRateProvider.fetch_rates ⟨[], "USD", none⟩ .failure
        ⟨2024, 6, 1, 0, 0, 0⟩
        (some ⟨some [("EUR", 9 / 10)], some "USD",
          some "2024-01-02 03:04:05"⟩)).2.2 = true ∧
    (OnlineRateProvider.fetch_rates ⟨[], "USD", none⟩ .failure
        ⟨2024, 6, 1, 0, 0, 0⟩
        (some ⟨some [("EUR", 9 / 10)], some "USD",
          some "2024-01-02 03:04:05"⟩)).1.last_update ≠ none := by
  decide

/-- C1 (amended): when the remote fetch fails and the cache file holds a
non-empty table with a parseable timestamp, `fetch_rates` adopts the cached
table and base currency, sets `last_update` to the cached timestamp (stale
data), and returns success = true — the boolean is `load_cache`'s "table is
non-empty" result, not false. -/
theorem C1_fetch_failure_cache_fallback :
    ∀ (st : OnlineState) (now : TimeStamp) (cd : CacheData) (t : TimeStamp),
      cd.rates.getD [] ≠ [] →
      parseTs (cd.last_update.getD "") = some t →
      OnlineRateProvider.fetch_rates st .failure now (some cd) =
        ({ rates := cd.rates.getD [], base_currency := cd.base_currency.getD "USD",
           last_update := some t }, some cd, true) := by
  intro st now cd t hr hp
  have hne : cd.last_update.getD "" ≠ "" := by
    intro h
    rw [h] at hp
    exact Option.noConfusion ((by decide : parseTs "" = none) ▸ hp)
  have hb : (cd.rates.getD []).isEmpty = false := by
    rcases h : cd.rates.getD [] with _ | ⟨p, rest⟩
    · exact absurd h hr
    · rfl
  simp only [OnlineRateProvider.fetch_rates, OnlineRateProvider.load_cache]
  rw [if_neg hne, hp]
  simp [hb]

/-- C1 witness: the concrete failing fetch adopts the cached EUR table and
the parsed cached timestamp, and returns true. -/
theorem C1_fetch_failure_cache_fallback_witness :
    OnlineRateProvider.fetch_rates ⟨[], "USD", none⟩ .failure
        ⟨2024, 6, 1, 0, 0, 0⟩
        (some ⟨some [("EUR", 9 / 10)], some "USD",
          some "2024-01-02 03:04:05"⟩) =
      ({ rates := (some [("EUR", (9 : ℚ) / 10)]).getD [],
         base_currency := (some "USD").getD "USD",
         last_update := some ⟨2024, 1, 2, 3, 4, 5⟩ },
        some ⟨some [("EUR", 9 / 10)], some "USD", some "2024-01-02 03:04:05"⟩,
        true) :=
  C1_fetch_failure_cache_fallback ⟨[], "USD", none⟩ ⟨2024, 6, 1, 0, 0, 0⟩
    ⟨some [("EUR", 9 / 10)], some "USD", some "2024-01-02 03:04:05"⟩
    ⟨2024, 1, 2, 3, 4, 5⟩ (by decide) (by decide)

/-- C3: whenever the amount text parses to a non-negative value and the
installed provider reports a positive rate, `convert` returns the product
amount * rate with no error, and the new history is the old one with
exactly one record — carrying that amount, pair, rate and result —
appended at the end (the oldest entry falling off only at capacity). -/
theorem C3_convert_success :
    ∀ (p : Provider) (hist : List ConversionRecord) (now s : String)
      (a : PyFloat) (fc tc : String),
      pyFloatOfString s = some a →
      pyLe (.finite 0) a = true →
      0 < Provider.get_exchange_rate p fc tc →
      CurrencyConverter.convert p hist now s fc tc =
        ((some (pyMul a (.finite (Provider.get_exchange_rate p fc tc))), none),
          HistoryManager.save_entry hist
            ⟨now, a, fc, tc, Provider.get_exchange_rate p fc tc,
              pyMul a (.finite (Provider.get_exchange_rate p fc tc))⟩) ∧
      (CurrencyConverter.convert p hist now s fc tc).2.getLast? =
        some ⟨now, a, fc, tc, Provider.get_exchange_rate p fc tc,
          pyMul a (.finite (Provider.get_exchange_rate p fc tc))⟩ := by
  intro p hist now s a fc tc hparse hnn hrate
  have hmain :
      CurrencyConverter.convert p hist now s fc tc =
        ((some (pyMul a (.finite (Provider.get_exchange_rate p fc tc))), none),
          HistoryManager.save_entry hist
            ⟨now, a, fc, tc, Provider.get_exchange_rate p fc tc,
              pyMul a (.finite (Provider.get_exchange_rate p fc tc))⟩) := by
    simp only [CurrencyConverter.convert, hparse]
    rw [pyLt_neg_false hnn]
    simp only [Bool.false_eq_true, if_false]
    rw [if_neg (not_le.mpr hrate)]
  exact ⟨hmain, by rw [hmain]; exact save_entry_getLast hist _⟩

/-- C3 witness: converting "100" from the base USD to EUR on an online
provider with rate 2 multiplies and appends the record. -/
theorem C3_convert_success_witness :
    CurrencyConverter.convert (Provider.online ⟨[("EUR", 2)], "USD", none⟩)
        [] "t" "100" "USD" "EUR" =
      ((some (pyMul (.finite 100)
          (.finite (Provider.get_exchange_rate
            (Provider.online ⟨[("EUR", 2)], "USD", none⟩) "USD" "EUR"))), none),
        HistoryManager.save_entry []
          ⟨"t", .finite 100, "USD", "EUR",
            Provider.get_exchange_rate
              (Provider.online ⟨[("EUR", 2)], "USD", none⟩) "USD" "EUR",
            pyMul (.finite 100)
              (.finite (Provider.get_exchange_rate
                (Provider.online ⟨[("EUR", 2)], "USD", none⟩) "USD" "EUR"))⟩) ∧
    (CurrencyConverter.convert (Provider.online ⟨[("EUR", 2)], "USD", none⟩)
        [] "t" "100" "USD" "EUR").2.getLast? =
      some ⟨"t", .finite 100, "USD", "EUR",
        Provider.get_exchange_rate
          (Provider.online ⟨[("EUR", 2)], "USD", none⟩) "USD" "EUR",
        pyMul (.finite 100)
          (.finite (Provider.get_exchange_rate
            (Provider.online ⟨[("EUR", 2)], "USD", none⟩) "USD" "EUR"))⟩ :=
  C3_convert_success (Provider.online ⟨[("EUR", 2)], "USD", none⟩) [] "t" "100"
    (.finite 100) "USD" "EUR" (by decide) (by decide) (by decide)

/-- C4: the three failure modes of `convert` come back as structured
(no-result, error) pairs — unparseable text as invalidAmount, a negative
parsed amount as negativeAmount, a non-positive provider rate as
rateUnavailable — a parsed zero amount with a positive rate is not an
error, and every error path leaves the history unchanged. -/
theorem C4_convert_error_paths :
    ∀ (p : Provider) (hist : List ConversionRecord) (now s fc tc : String),
      (pyFloatOfString s = none →
        CurrencyConverter.convert p hist now s fc tc =
          ((none, some .invalidAmount), hist)) ∧
      (∀ a, pyFloatOfString s = some a → pyLt a (.finite 0) = true →
        CurrencyConverter.convert p hist now s fc tc =
          ((none, some .negativeAmount), hist)) ∧
      (∀ a, pyFloatOfString s = some a → pyLt a (.finite 0) = false →
        Provider.get_exchange_rate p fc tc ≤ 0 →
        CurrencyConverter.convert p hist now s fc tc =
          ((none, some .rateUnavailable), hist)) ∧
      (pyFloatOfString s = some (.finite 0) →
        0 < Provider.get_exchange_rate p fc tc →
        (CurrencyConverter.convert p hist now s fc tc).1.2 = none) ∧
      (∀ e, (CurrencyConverter.convert p hist now s fc tc).1.2 = some e →
        (CurrencyConverter.convert p hist now s fc tc).2 = hist) := by
  intro p hist now s fc tc
  refine ⟨?_, ?_, ?_, ?_, ?_⟩
  · intro hparse
    simp [CurrencyConverter.convert, hparse]
  · intro a hparse hneg
    simp [CurrencyConverter.convert, hparse, hneg]
  · intro a hparse hneg hrate
    simp only [CurrencyConverter.convert, hparse]
    rw [hneg]
    simp only [Bool.false_eq_true, if_false]
    rw [if_pos hrate]
  · intro hparse hrate
    simp only [CurrencyConverter.convert, hparse]
    rw [show pyLt (.finite 0) (.finite 0) = false from by decide]
    simp only [Bool.false_eq_true, if_false]
    rw [if_neg (not_le.mpr hrate)]
  · intro e
    rcases hq : pyFloatOfString s with _ | a
    · simp [CurrencyConverter.convert, hq]
    · simp only [CurrencyConverter.convert, hq]
      by_cases h1 : pyLt a (.finite 0) = true
      · simp [h1]
      · rw [show pyLt a (.finite 0) = false from Bool.not_eq_true _ ▸ h1]
        simp only [Bool.false_eq_true, if_false]
        by_cases h2 : Provider.get_exchange_rate p fc tc ≤ 0
        · simp [h2]
        · rw [if_neg h2]
          intro hcontra
          exact absurd hcontra (by simp)

/-- C8: from an empty history, no sequence of `save_entry` calls grows the
history beyond 50 records; each call appends the new record at the end,
evicting exactly the oldest entry (index 0) when the length would exceed
50; and 51 consecutive saves leave exactly the last 50 in insertion order
(the first entry gone). -/
theorem C8_history_bound :
    (∀ es : List ConversionRecord,
      (es.foldl HistoryManager.save_entry []).length ≤ 50) ∧
    (∀ (h : List ConversionRecord) (e : ConversionRecord),
      HistoryManager.save_entry h e =
        (if 50 < h.length + 1 then (h ++ [e]).tail else h ++ [e])) ∧
    (∀ es : List ConversionRecord, es.length = 51 →
      es.foldl HistoryManager.save_entry [] = es.tail) := by
  refine ⟨?_, ?_, ?_⟩
  · intro es
    rw [save_entry_foldl es [] (by simp)]
    simp
    omega
  · intro h e
    unfold HistoryManager.save_entry
    simp [List.length_append]
  · intro es h
    rw [save_entry_foldl es [] (by simp)]
    simp [h, List.drop_one]

/-- C8 witness: 51 concrete saves from empty leave exactly the last 50
records. -/
theorem C8_history_bound_witness :
    ((List.range 51).map
        (fun i => (⟨"", .finite i, "USD", "EUR", 1, .finite i⟩ :
          ConversionRecord))).foldl HistoryManager.save_entry [] =
      ((List.range 51).map
        (fun i => (⟨"", .finite i, "USD", "EUR", 1, .finite i⟩ :
          ConversionRecord))).tail :=
  C8_history_bound.2.2 _ (by decide)

/-- C9: saving the provider's snapshot and loading it back restores the
rates table, the base currency, and the timestamp (second-precision
formatted as YYYY-MM-DD HH:MM:SS) exactly, whatever state the loading
provider started in. -/
theorem C9_cache_round_trip :
    ∀ (st st2 : OnlineState) (t : TimeStamp),
      st.last_update = some t → validTs t →
      OnlineRateProvider.load_cache st2 (some (OnlineRateProvider.save_cache st)) =
        ({ rates := st.rates, base_currency := st.base_currency,
           last_update := some t }, !st.rates.isEmpty) := by
  intro st st2 t hlu hv
  simp only [OnlineRateProvider.save_cache, OnlineRateProvider.load_cache, hlu,
    Option.getD_some]
  rw [if_neg (formatTs_ne_empty t), parse_format hv]

/-- C9 witness: a concrete EUR snapshot with timestamp
2024-05-17 12:30:45 round-trips through save and load. -/
theorem C9_cache_round_trip_witness :
    OnlineRateProvider.load_cache ⟨[], "EUR", none⟩
        (some (OnlineRateProvider.save_cache
          ⟨[("EUR", 17 / 20)], "USD", some ⟨2024, 5, 17, 12, 30, 45⟩⟩)) =
      ({ rates := [("EUR", 17 / 20)], base_currency := "USD",
         last_update := some ⟨2024, 5, 17, 12, 30, 45⟩ }, true) :=
  C9_cache_round_trip ⟨[("EUR", 17 / 20)], "USD", some ⟨2024, 5, 17, 12, 30, 45⟩⟩
    ⟨[], "EUR", none⟩ ⟨2024, 5, 17, 12, 30, 45⟩ rfl (by decide)

/-- C10: the amount text "inf" parses successfully (Python float accepts
it), so `convert` does not return invalidAmount: with any provider
reporting a positive rate it returns the non-finite result inf with no
error and appends a record carrying that non-finite result. -/
theorem C10_nonfinite_amount :
    pyFloatOfString "inf" = some PyFloat.inf ∧
    PyFloat.isFinite PyFloat.inf = false ∧
    (∀ (p : Provider) (hist : List ConversionRecord) (now fc tc : String),
      0 < Provider.get_exchange_rate p fc tc →
      CurrencyConverter.convert p hist now "inf" fc tc =
        ((some PyFloat.inf, none),
          HistoryManager.save_entry hist
            ⟨now, PyFloat.inf, fc, tc, Provider.get_exchange_rate p fc tc,
              PyFloat.inf⟩)) := by
  refine ⟨by decide, rfl, ?_⟩
  intro p hist now fc tc hr
  have hp : pyFloatOfString "inf" = some PyFloat.inf := by decide
  simp only [CurrencyConverter.convert, hp]
  rw [show pyLt PyFloat.inf (.finite 0) = false from rfl]
  simp only [Bool.false_eq_true, if_false]
  rw [if_neg (not_le.mpr hr), pyMul_inf_pos hr]

/-- C10 witness: converting "inf" from the base USD with rate 2 yields the
non-finite result inf and appends the record. -/
theorem C10_nonfinite_amount_witness :
    CurrencyConverter.convert (Provider.online ⟨[("EUR", 2)], "USD", none⟩)
        [] "t" "inf" "USD" "EUR" =
      ((some PyFloat.inf, none),
        HistoryManager.save_entry []
          ⟨"t", PyFloat.inf, "USD", "EUR",
            Provider.get_exchange_rate
              (Provider.online ⟨[("EUR", 2)], "USD", none⟩) "USD" "EUR",
            PyFloat.inf⟩) :=
  C10_nonfinite_amount.2.2 (Provider.online ⟨[("EUR", 2)], "USD", none⟩)
    [] "t" "USD" "EUR" (by decide)

/-- C4 witness: concrete runs of each error path ("abc" invalid, "-5"
negative, empty table rate 0), the valid zero amount, and an error path
leaving the empty history empty. -/
theorem C4_convert_error_paths_witness :
    CurrencyConverter.convert (Provider.online ⟨[("EUR", 2)], "USD", none⟩)
        [] "t" "abc" "USD" "EUR" = ((none, some .invalidAmount), []) ∧
    CurrencyConverter.convert (Provider.online ⟨[("EUR", 2)], "USD", none⟩)
        [] "t" "-5" "USD" "EUR" = ((none, some .negativeAmount), []) ∧
    CurrencyConverter.convert (Provider.online ⟨[], "USD", none⟩)
        [] "t" "10" "USD" "EUR" = ((none, some .rateUnavailable), []) ∧
    (CurrencyConverter.convert (Provider.online ⟨[("EUR", 2)], "USD", none⟩)
        [] "t" "0" "USD" "EUR").1.2 = none ∧
    (CurrencyConverter.convert (Provider.online ⟨[("EUR", 2)], "USD", none⟩)
        [] "t" "abc" "USD" "EUR").2 = [] :=
  ⟨(C4_convert_error_paths (Provider.online ⟨[("EUR", 2)], "USD", none⟩)
      [] "t" "abc" "USD" "EUR").1 (by decide),
   (C4_convert_error_paths (Provider.online ⟨[("EUR", 2)], "USD", none⟩)
      [] "t" "-5" "USD" "EUR").2.1 (.finite (-5)) (by decide) (by decide),
   (C4_convert_error_paths (Provider.online ⟨[], "USD", none⟩)
      [] "t" "10" "USD" "EUR").2.2.1 (.finite 10) (by decide) (by decide)
      (by decide),
   (C4_convert_error_paths (Provider.online ⟨[("EUR", 2)], "USD", none⟩)
      [] "t" "0" "USD" "EUR").2.2.2.1 (by decide) (by decide),
   (C4_convert_error_paths (Provider.online ⟨[("EUR", 2)], "USD", none⟩)
      [] "t" "abc" "USD" "EUR").2.2.2.2 ConvError.invalidAmount (by decide)⟩
